import Mathlib

/-!
Verification development for the `operator` process supervisor
(`src/operator/src/engine.rs`, `src/operator/src/service.rs`,
`src/operator/src/ipc.rs`).

The Rust sources are shallowly embedded: the process table (a
`HashMap<i32, Service>`) becomes an association list from pids to
service records, the signal self-pipe becomes a byte queue, and the
body of the steady-state loop in `Engine::run` becomes a pure step
function over an explicit event describing what the environment
(poll, pipe read, waitpid, accept, message read, kill, response
write) reported in one iteration.  Rust panics (`unwrap`, `panic!`)
are modelled as `Except.error`.
-/

/-- Log levels used by the `log` crate calls in the source. -/
inductive LogLevel where
  | info
  | warn
  | error
deriving DecidableEq, Repr

/-- One log line: level and message. -/
abbrev LogEntry := LogLevel × String

/-- `service.rs`: status of the service (enum `ServiceStatus`). -/
inductive ServiceStatus where
  | Running
  | Stopped
  | Zombie
deriving DecidableEq, Repr

/-- `service.rs`: a service record.  `PathBuf` and `CString` fields are
modelled as `String`; the serde-skipped runtime fields keep their
`Option` types. -/
structure Service where
  name : String
  executable : String
  args : Option (List String)
  pid : Option Int
  status : Option ServiceStatus
  exit_code : Option Nat
deriving DecidableEq, Repr

/-- `ipc.rs`: message format between operator and operatorctl. -/
inductive IPCMessage where
  | Start (name : String)
  | Stop (name : String)
  | Status (name : String)
  | StatusResponse (r : Option (Int × ServiceStatus))
deriving DecidableEq, Repr

namespace comms

/-- `i32::to_le_bytes`: the two's-complement 32-bit value of `v`,
little-endian, one `Nat < 256` per byte. -/
def i32_to_le_bytes (v : Int) : List Nat :=
  let u := (v % 4294967296).toNat
  [u % 256, u / 256 % 256, u / 65536 % 256, u / 16777216 % 256]

/-- `i32::from_le_bytes`: reassemble the unsigned value and reinterpret
it as a signed 32-bit integer. -/
def i32_from_le_bytes (b0 b1 b2 b3 : Nat) : Int :=
  let u := b0 + 256 * b1 + 65536 * b2 + 16777216 * b3
  if u < 2147483648 then (u : Int) else (u : Int) - 4294967296

/-- The self-pipe between the SIGCHLD handler and the engine, as the
queue of bytes currently buffered in it. -/
abbrev Pipe := List Nat

/-- `comms::write_to_pipe(val)`: a single write of the 4 little-endian
bytes of `val` onto the write end (appended at the back of the queue;
the 4-byte write is atomic, below `PIPE_BUF`). -/
def write_to_pipe (p : Pipe) (val : Int) : Pipe :=
  List.append p (i32_to_le_bytes val)

/-- `comms::read_from_pipe()`: read 4 bytes from the read end and decode
them with `i32::from_le_bytes`; zero bytes available is the hard error
(`anyhow::bail`).  Returns the decoded pid and the rest of the queue. -/
def read_from_pipe (p : Pipe) : Except String (Int × Pipe) :=
  match p with
  | [] => Except.error "Faild to read, probably invalid"
  | b0 :: b1 :: b2 :: b3 :: rest => Except.ok (i32_from_le_bytes b0 b1 b2 b3, rest)
  | _ => Except.error "short read"

/-- Writing a whole sequence of pids, in order. -/
def write_all (p : Pipe) (vs : List Int) : Pipe :=
  vs.foldl write_to_pipe p

/-- Draining `n` pids from the pipe, in order. -/
def drain_all : Nat → Pipe → Except String (List Int)
  | 0, _ => Except.ok []
  | n + 1, p =>
    match read_from_pipe p with
    | Except.error e => Except.error e
    | Except.ok (v, rest) =>
      match drain_all n rest with
      | Except.error e => Except.error e
      | Except.ok vs => Except.ok (v :: vs)

/-- `v` fits in an `i32`. -/
def fits_i32 (v : Int) : Prop := -2147483648 ≤ v ∧ v < 2147483648

instance (v : Int) : Decidable (fits_i32 v) := instDecidableAnd

theorem i32_roundtrip (v : Int) (h : fits_i32 v) :
    i32_from_le_bytes ((v % 4294967296).toNat % 256)
      ((v % 4294967296).toNat / 256 % 256)
      ((v % 4294967296).toNat / 65536 % 256)
      ((v % 4294967296).toNat / 16777216 % 256) = v := by
  obtain ⟨h1, h2⟩ := h
  simp only [i32_from_le_bytes]
  split <;> omega

theorem read_write_one (p : Pipe) (v : Int) (h : fits_i32 v) :
    read_from_pipe (write_to_pipe p v) =
      (match p with
       | [] => Except.ok (v, [])
       | _ => read_from_pipe (List.append p (i32_to_le_bytes v))) := by
  match p with
  | [] =>
    simp only [write_to_pipe, i32_to_le_bytes, List.append, read_from_pipe]
    rw [i32_roundtrip v h]
  | b :: rest => rfl

theorem read_encoded (v : Int) (h : fits_i32 v) (rest : Pipe) :
    read_from_pipe (List.append (i32_to_le_bytes v) rest) = Except.ok (v, rest) := by
  simp only [i32_to_le_bytes, List.append, read_from_pipe]
  rw [i32_roundtrip v h]

theorem write_all_cons (p : Pipe) (v : Int) (vs : List Int) :
    write_all p (v :: vs) = write_all (write_to_pipe p v) vs := rfl

theorem write_all_append_left (p q : Pipe) (vs : List Int) :
    write_all (List.append p q) vs = List.append p (write_all q vs) := by
  induction vs generalizing q with
  | nil => rfl
  | cons v vs ih =>
    simp only [write_all, List.foldl, write_to_pipe]
    have h : List.append (List.append p q) (i32_to_le_bytes v)
        = List.append p (List.append q (i32_to_le_bytes v)) := List.append_assoc p q _
    rw [h]
    exact ih _

theorem drain_all_write_all (vs : List Int) (h : ∀ v ∈ vs, fits_i32 v) :
    drain_all vs.length (write_all [] vs) = Except.ok vs := by
  induction vs with
  | nil => rfl
  | cons v vs ih =>
    have hv : fits_i32 v := h v (List.mem_cons_self v vs)
    have hrest : ∀ w ∈ vs, fits_i32 w := fun w hw => h w (List.mem_cons_of_mem v hw)
    have hsplit : write_all [] (v :: vs) = List.append (i32_to_le_bytes v) (write_all [] vs) := by
      rw [write_all_cons]
      have : write_to_pipe [] v = List.append (i32_to_le_bytes v) [] := by
        simp [write_to_pipe, List.append_nil]
      rw [this, write_all_append_left]
    simp only [List.length_cons, hsplit, drain_all, read_encoded v hv, ih hrest]

end comms

/-! ## The process table (`Engine.services : HashMap<i32, Service>`)

Modelled as an association list from pid to `Service`.  `insert`
replaces an existing binding (HashMap semantics), lookup returns the
first binding with the key, and the name-keyed lookups are the linear
`iter().find(...)` scans of the source. -/

/-- The engine's process table. -/
abbrev ProcTable := List (Int × Service)

/-- `self.services.get(&pid)` / `get_mut(&pid)`. -/
def lookupPid (t : ProcTable) (pid : Int) : Option Service :=
  (t.find? (fun e => e.1 == pid)).map (fun e => e.2)

/-- `self.services.contains_key(&pid)` (derived). -/
def containsPid (t : ProcTable) (pid : Int) : Bool :=
  (lookupPid t pid).isSome

/-- `self.services.insert(pid, svc)`. -/
def insertPid (t : ProcTable) (pid : Int) (svc : Service) : ProcTable :=
  if containsPid t pid then
    t.map (fun e => if e.1 == pid then (pid, svc) else e)
  else
    List.append t [(pid, svc)]

/-- In-place `service.status = s` on the entry keyed `pid` (the effect
of mutating through `get_mut`). -/
def setStatus (t : ProcTable) (pid : Int) (s : Option ServiceStatus) : ProcTable :=
  t.map (fun e => if e.1 == pid then (e.1, { e.2 with status := s }) else e)

/-- `self.services.iter().find(|(_, service)| service.name == name)`:
the linear scan by name used by both `Stop` and `Status`. -/
def findByName (t : ProcTable) (name : String) : Option (Int × Service) :=
  t.find? (fun e => e.2.name == name)

/-! ## Events of one iteration of the steady-state loop

One iteration of the `loop` in `Engine::run` polls the pipe read fd
and the IPC listener fd, then services whichever is ready, pipe fd
first (it is first in the `fds` vector).  The event records what the
environment answered at each fallible call. -/

/-- `nix::sys::wait::WaitStatus` (the variants the loop distinguishes;
every variant other than `Exited` and `Signaled` falls into the
catch-all arm of the source's `match`). -/
inductive WaitStatus where
  | Exited (pid : Int) (code : Int)
  | Signaled (pid : Int) (signal : Int) (coreDumped : Bool)
  | Stopped (pid : Int) (signal : Int)
  | Continued (pid : Int)
  | StillAlive
deriving DecidableEq, Repr

/-- Terminal statuses: normal exit or killed by a signal. -/
def WaitStatus.isTerminal : WaitStatus → Bool
  | .Exited _ _ => true
  | .Signaled _ _ _ => true
  | _ => false

/-- Result of the `waitpid` call for a drained pid. -/
inductive WaitResult where
  | ok (ws : WaitStatus)
  | err (e : String)
deriving DecidableEq, Repr

/-- What happened on the signal-pipe branch: `read_from_pipe` failed,
or it returned a pid (with the subsequent `waitpid` answer). -/
inductive PipeEvent where
  | readErr (e : String)
  | readOk (pid : Int) (wr : WaitResult)
deriving DecidableEq, Repr

/-- What happened on the IPC branch: `accept` failed, `stream.read`
failed, or a message arrived.  `killErr` is the answer of the `kill`
call (used only by `Stop`); `writeErr` is the answer of the
`stream.write` call (used only by `Status`); `none` means success. -/
inductive IpcEvent where
  | acceptErr (e : String)
  | readErr (e : String)
  | msg (m : IPCMessage) (killErr : Option String) (writeErr : Option String)
deriving DecidableEq, Repr

/-- Errno returned by a failing `poll`. -/
inductive Errno where
  | EINTR
  | other (e : String)
deriving DecidableEq, Repr

/-- The observable effects of one loop iteration: the new process
table, log lines emitted, IPC responses written, and the pids that
were sent SIGTERM (the only signal the loop ever sends). -/
structure StepOut where
  table : ProcTable
  logs : List LogEntry
  resps : List IPCMessage
  sigterms : List Int
deriving DecidableEq

/-- The signal-pipe branch of the loop body (`engine.rs` lines
113-139): read a pid from the pipe, `waitpid` it, and update the
matching record.  A read error just `continue`s; a `waitpid` error is
logged and the loop continues; a terminal status sets the matching
record's status to `Stopped`; a non-terminal status is logged; an
unknown pid is ignored.  This branch never panics. -/
def handlePipeReady (t : ProcTable) (ev : PipeEvent) : StepOut :=
  match ev with
  | .readErr _ => ⟨t, [], [], []⟩
  | .readOk pid wr =>
    match wr with
    | .err e => ⟨t, [(.error, "waitpid() failed: " ++ e)], [], []⟩
    | .ok ws =>
      match lookupPid t pid with
      | some _ =>
        match ws with
        | .Exited _ _ => ⟨setStatus t pid (some .Stopped), [], [], []⟩
        | .Signaled _ _ _ => ⟨setStatus t pid (some .Stopped), [], [], []⟩
        | _ => ⟨t, [(.info, "waitpid() returned non-terminal status")], [], []⟩
      | none => ⟨t, [], [], []⟩

/-- The IPC branch of the loop body (`engine.rs` lines 141-175).
`accept().unwrap()` and `stream.read().unwrap()` panic on error
(modelled as `Except.error`); `Start` and `StatusResponse` are
no-ops; `Stop` scans by name and sends SIGTERM best-effort (a `kill`
error is only logged); `Status` scans by name and writes exactly one
`StatusResponse`, where both `service.status.unwrap()` and
`stream.write(..).unwrap()` panic on failure. -/
def handleIpcReady (t : ProcTable) (ev : IpcEvent) : Except String StepOut :=
  match ev with
  | .acceptErr e => Except.error ("accept failed: " ++ e)
  | .readErr e => Except.error ("stream read failed: " ++ e)
  | .msg m killErr writeErr =>
    match m with
    | .Start _ => Except.ok ⟨t, [], [], []⟩
    | .Stop name =>
      match findByName t name with
      | some (pid, _) =>
        match killErr with
        | some e =>
          Except.ok ⟨t, [(.info, "Asking service to terminate."),
            (.error, "kill() failed: " ++ e)], [], [pid]⟩
        | none =>
          Except.ok ⟨t, [(.info, "Asking service to terminate.")], [], [pid]⟩
      | none => Except.ok ⟨t, [(.warn, "No service found to kill")], [], []⟩
    | .Status name =>
      match findByName t name with
      | some (pid, svc) =>
        match svc.status with
        | none => Except.error "unwrap on None"
        | some st =>
          match writeErr with
          | some e => Except.error ("stream write failed: " ++ e)
          | none =>
            Except.ok ⟨t, [], [IPCMessage.StatusResponse (some (pid, st))], []⟩
      | none =>
        match writeErr with
        | some e => Except.error ("stream write failed: " ++ e)
        | none => Except.ok ⟨t, [], [IPCMessage.StatusResponse none], []⟩
    | .StatusResponse _ => Except.ok ⟨t, [], [], []⟩

/-- The `while let Err(e) = poll(..)` retry loop: EINTR is retried,
any other errno panics. -/
def pollRetry : List Errno → Except String Unit
  | [] => Except.ok ()
  | Errno.EINTR :: rest => pollRetry rest
  | Errno.other e :: _ => Except.error ("select() failed with " ++ e)

/-- Everything the environment decides in one loop iteration. -/
structure LoopEvent where
  pollErrs : List Errno
  pipeReady : Bool
  ipcReady : Bool
  pipeEv : PipeEvent
  ipcEv : IpcEvent
deriving DecidableEq

/-- The effect of the pipe branch in one iteration: the branch runs
only when poll reported the pipe fd ready. -/
def pipeOut (t : ProcTable) (ev : LoopEvent) : StepOut :=
  if ev.pipeReady then handlePipeReady t ev.pipeEv else ⟨t, [], [], []⟩

/-- Sequential composition of the effects of the two branches. -/
def mergeOut (o1 o2 : StepOut) : StepOut :=
  ⟨o2.table, List.append o1.logs o2.logs, List.append o1.resps o2.resps,
    List.append o1.sigterms o2.sigterms⟩

/-- The `for fd in fds` body: the pipe branch (first in the `fds`
vector), then the IPC branch on the resulting table, each guarded by
its readiness bit. -/
def loopBranches (t : ProcTable) (ev : LoopEvent) : Except String StepOut :=
  if ev.ipcReady then
    match handleIpcReady (pipeOut t ev).table ev.ipcEv with
    | Except.error e => Except.error e
    | Except.ok out2 => Except.ok (mergeOut (pipeOut t ev) out2)
  else
    Except.ok (pipeOut t ev)

/-- One iteration of the steady-state `loop` of `Engine::run`: run the
poll retry loop, then both ready branches.  `Except.error` models a
panic unwinding out of the loop. -/
def loopStep (t : ProcTable) (ev : LoopEvent) : Except String StepOut :=
  match pollRetry ev.pollErrs with
  | Except.error e => Except.error e
  | Except.ok _ => loopBranches t ev

/-- A loop event in which only the signal pipe is ready (the IPC event
field is irrelevant and set to a dummy). -/
def pipeOnlyEvent (pe : PipeEvent) : LoopEvent :=
  ⟨[], true, false, pe, IpcEvent.acceptErr ""⟩

/-- A loop event in which only the IPC listener is ready. -/
def ipcOnlyEvent (ie : IpcEvent) : LoopEvent :=
  ⟨[], false, true, PipeEvent.readErr "", ie⟩

/-- Several successive loop iterations; stops at the first panic. -/
def runSteps (t : ProcTable) : List LoopEvent → Except String ProcTable
  | [] => Except.ok t
  | ev :: rest =>
    match loopStep t ev with
    | Except.error e => Except.error e
    | Except.ok out => runSteps out.table rest

/-! ## The forked child (`Service::start`, `service.rs` lines 52-100)

`start` runs only in the forked child and never returns: it builds the
argv vector, opens the per-service log file, dup2s it onto stdout and
stderr, and execs.  Following the spec's own modelling note, the
result is an explicit outcome type in which "returned to supervisor
code" is a variant that the function must never produce. -/

/-- Where a standard descriptor of the child points. -/
inductive Sink where
  | inherited
  | logFile
deriving DecidableEq, Repr

/-- What the environment decides inside the child: the fd returned by
`open` on the log file (`none` models the `-1` failure return), and
whether `execv` succeeds. -/
structure ChildEnv where
  logOpenFd : Option Nat
  execOk : Bool
deriving DecidableEq, Repr

/-- How the child branch ends.  `Execed` carries the program path and
the (null-terminated) argv passed to `execv`; `Exited code` is a call
of `exit` observed by the parent as wait status `code`;
`ReturnedToSupervisor` would be a fall-through into supervisor code
and is never produced. -/
inductive ChildOutcome where
  | Execed (prog : String) (argv : List (Option String))
  | Exited (code : Nat)
  | ReturnedToSupervisor
deriving DecidableEq, Repr

/-- Observable effects of the child branch. -/
structure ChildRun where
  argv : List (Option String)
  stdoutSink : Sink
  stderrSink : Sink
  logs : List LogEntry
  outcome : ChildOutcome
deriving DecidableEq

/-- `dup2(oldfd, newfd)`: with an invalid `oldfd` (the `-1` of a failed
`open`) it fails with EBADF and the target descriptor is unchanged;
with a valid fd the target now refers to the log file. -/
def dup2Model (oldFd : Option Nat) (cur : Sink) : Sink :=
  match oldFd with
  | none => cur
  | some _ => Sink.logFile

/-- `std::process::exit(code)` as observed by the parent: the low 8
bits of the exit code (`exit(-1)` is seen as 255). -/
def exitStatusOf (code : Int) : Nat := (code % 256).toNat

/-- `Service::start`, the child branch of the fork. -/
def Service.start (s : Service) (env : ChildEnv) : ChildRun :=
  let argvInit : List (Option String) :=
    match s.args with
    | some as => some s.executable :: as.map some
    | none => [some s.executable]
  let argv := List.append argvInit [none]
  let openLogs : List LogEntry :=
    match env.logOpenFd with
    | none => [(LogLevel.error, "Failed to create log file")]
    | some _ => []
  let stdoutSink := dup2Model env.logOpenFd Sink.inherited
  let stderrSink := dup2Model env.logOpenFd Sink.inherited
  if env.execOk then
    ⟨argv, stdoutSink, stderrSink,
      List.append [(LogLevel.info, "executing")] openLogs,
      ChildOutcome.Execed s.executable argv⟩
  else
    ⟨argv, stdoutSink, stderrSink,
      List.append (List.append [(LogLevel.info, "executing")] openLogs)
        [(LogLevel.error, "exec() Failed"), (LogLevel.error, "errno")],
      ChildOutcome.Exited (exitStatusOf (-1))⟩

/-! ## Startup (`Engine::run`, `engine.rs` lines 69-84)

For each service read from the descriptor files, the parent branch of
the fork sets the record's status to `Running` and its pid to the
child's pid, and inserts it into the table keyed by that pid.  The
forked pids are environment input. -/

/-- The parent-branch mutation at fork time. -/
def launchRecord (sv : Service) (child : Int) : Service :=
  { sv with status := some ServiceStatus.Running, pid := some child }

/-- The startup fork loop: fold the parent-branch insert over the
declared services paired with the pids `fork` returned. -/
def launchAll (t : ProcTable) : List (Service × Int) → ProcTable
  | [] => t
  | (sv, child) :: rest => launchAll (insertPid t child (launchRecord sv child)) rest

/-- The process-table invariant: every entry keyed `pid` holds a record
whose `pid` field is `some pid` and whose `status` is `some Running`
or `some Stopped` (never `none`, never `Zombie`). -/
def WFTable (t : ProcTable) : Prop :=
  ∀ e ∈ t, e.2.pid = some e.1 ∧
    (e.2.status = some ServiceStatus.Running ∨ e.2.status = some ServiceStatus.Stopped)


/-! ## Helper lemmas on the table and the loop step -/

/-- The mutation a terminal SIGCHLD applies to a record. -/
def stopService (sv : Service) : Service :=
  { sv with status := some ServiceStatus.Stopped }

theorem lookup_setStatus (t : ProcTable) (p q : Int) (s : Option ServiceStatus) :
    lookupPid (setStatus t p s) q =
      if q = p then (lookupPid t q).map (fun sv => { sv with status := s })
      else lookupPid t q := by
  unfold lookupPid setStatus
  rw [List.find?_map]
  have hcomp : ((fun (e : Int × Service) => e.1 == q) ∘
      (fun (e : Int × Service) => if e.1 == p then (e.1, { e.2 with status := s }) else e)) =
      (fun (e : Int × Service) => e.1 == q) := by
    funext e
    simp only [Function.comp]
    split <;> rfl
  rw [hcomp]
  cases hf : List.find? (fun (e : Int × Service) => e.1 == q) t with
  | none => simp
  | some e =>
    have hk : e.1 = q := by simpa using List.find?_some hf
    by_cases hqp : q = p
    · have hep : (e.1 == p) = true := by simp [hk, hqp]
      simp [hep, hk, hqp]
    · have hep : (e.1 == p) = false := by simp [hk, hqp]
      simp [hep, hk, hqp]

theorem contains_setStatus (t : ProcTable) (p q : Int) (s : Option ServiceStatus) :
    containsPid (setStatus t p s) q = containsPid t q := by
  unfold containsPid
  rw [lookup_setStatus]
  split <;> simp

/-- The IPC branch never touches the table. -/
theorem handleIpc_table (t : ProcTable) (ev : IpcEvent) (out : StepOut)
    (h : handleIpcReady t ev = Except.ok out) : out.table = t := by
  unfold handleIpcReady at h
  repeat' split at h
  all_goals first
    | (cases h; rfl)
    | exact absurd h (by simp)

/-- The pipe branch either leaves the table alone or stops one pid. -/
theorem pipe_table_shape (t : ProcTable) (pe : PipeEvent) :
    (handlePipeReady t pe).table = t ∨
      ∃ p, (handlePipeReady t pe).table = setStatus t p (some ServiceStatus.Stopped) := by
  unfold handlePipeReady
  repeat' split
  all_goals first
    | exact Or.inl rfl
    | exact Or.inr ⟨_, rfl⟩

theorem pipeOut_table_shape (t : ProcTable) (ev : LoopEvent) :
    (pipeOut t ev).table = t ∨
      ∃ p, (pipeOut t ev).table = setStatus t p (some ServiceStatus.Stopped) := by
  unfold pipeOut
  split
  · exact pipe_table_shape t ev.pipeEv
  · exact Or.inl rfl

/-- Any non-panicking loop iteration either leaves the table alone or
stops one pid. -/
theorem step_table_shape (t : ProcTable) (ev : LoopEvent) (out : StepOut)
    (h : loopStep t ev = Except.ok out) :
    out.table = t ∨
      ∃ p, out.table = setStatus t p (some ServiceStatus.Stopped) := by
  unfold loopStep at h
  cases hp : pollRetry ev.pollErrs with
  | error e =>
    rw [hp] at h
    exact absurd h (by simp)
  | ok u =>
    rw [hp] at h
    simp only [] at h
    unfold loopBranches at h
    by_cases hi : ev.ipcReady
    · simp only [hi, if_true] at h
      cases hh : handleIpcReady (pipeOut t ev).table ev.ipcEv with
      | error e =>
        rw [hh] at h
        exact absurd h (by simp)
      | ok out2 =>
        rw [hh] at h
        cases h
        have h2 := handleIpc_table _ _ _ hh
        simpa [mergeOut, h2] using pipeOut_table_shape t ev
    · simp only [hi, if_false] at h
      cases h
      exact pipeOut_table_shape t ev

/-- Per-record evolution across one non-panicking iteration: a record
is either untouched or has exactly its status set to `Stopped`. -/
theorem step_record_evolution (t : ProcTable) (ev : LoopEvent) (out : StepOut)
    (h : loopStep t ev = Except.ok out) (pid : Int) (svc : Service)
    (hl : lookupPid t pid = some svc) :
    lookupPid out.table pid = some svc ∨
      lookupPid out.table pid = some (stopService svc) := by
  rcases step_table_shape t ev out h with hsh | ⟨p, hsh⟩
  · rw [hsh]
    exact Or.inl hl
  · rw [hsh, lookup_setStatus]
    by_cases hqp : pid = p
    · rw [if_pos hqp, hl]
      exact Or.inr rfl
    · rw [if_neg hqp]
      exact Or.inl hl

/-- No iteration adds or removes table keys. -/
theorem step_contains (t : ProcTable) (ev : LoopEvent) (out : StepOut)
    (h : loopStep t ev = Except.ok out) (pid : Int) :
    containsPid out.table pid = containsPid t pid := by
  rcases step_table_shape t ev out h with hsh | ⟨p, hsh⟩
  · rw [hsh]
  · rw [hsh, contains_setStatus]

theorem wf_setStatus_stopped (t : ProcTable) (p : Int) (h : WFTable t) :
    WFTable (setStatus t p (some ServiceStatus.Stopped)) := by
  intro e he
  unfold setStatus at he
  rcases List.mem_map.mp he with ⟨e0, he0, heq⟩
  rcases h e0 he0 with ⟨hpid, _hst⟩
  by_cases hc : (e0.1 == p) = true
  · rw [if_pos hc] at heq
    subst heq
    exact ⟨hpid, Or.inr rfl⟩
  · rw [if_neg hc] at heq
    subst heq
    exact h e0 he0

theorem wf_insertPid (t : ProcTable) (pid : Int) (svc : Service) (h : WFTable t)
    (hpid : svc.pid = some pid)
    (hst : svc.status = some ServiceStatus.Running ∨
      svc.status = some ServiceStatus.Stopped) :
    WFTable (insertPid t pid svc) := by
  intro e he
  unfold insertPid at he
  split at he
  · rcases List.mem_map.mp he with ⟨e0, he0, heq⟩
    by_cases hc : (e0.1 == pid) = true
    · rw [if_pos hc] at heq
      subst heq
      exact ⟨hpid, hst⟩
    · rw [if_neg hc] at heq
      subst heq
      exact h e0 he0
  · rcases List.mem_append.mp he with he1 | he1
    · exact h e he1
    · have : e = (pid, svc) := List.mem_singleton.mp he1
      subst this
      exact ⟨hpid, hst⟩

theorem wf_nil : WFTable [] := by
  intro e he
  exact absurd he (List.not_mem_nil e)

theorem wf_launchAll (l : List (Service × Int)) (t : ProcTable) (h : WFTable t) :
    WFTable (launchAll t l) := by
  induction l generalizing t with
  | nil => exact h
  | cons sl rest ih =>
    exact ih _ (wf_insertPid _ _ _ h rfl (Or.inl rfl))

theorem wf_step (t : ProcTable) (ev : LoopEvent) (out : StepOut)
    (h : loopStep t ev = Except.ok out) (hwf : WFTable t) : WFTable out.table := by
  rcases step_table_shape t ev out h with hsh | ⟨p, hsh⟩
  · rw [hsh]
    exact hwf
  · rw [hsh]
    exact wf_setStatus_stopped t p hwf

/-- The table shows `pid` as a stopped service. -/
def StoppedAt (t : ProcTable) (pid : Int) : Prop :=
  ∃ svc, lookupPid t pid = some svc ∧ svc.status = some ServiceStatus.Stopped

theorem step_stopped_absorbing (t : ProcTable) (ev : LoopEvent) (out : StepOut)
    (h : loopStep t ev = Except.ok out) (pid : Int) (hs : StoppedAt t pid) :
    StoppedAt out.table pid := by
  rcases hs with ⟨svc, hl, hst⟩
  rcases step_record_evolution t ev out h pid svc hl with h1 | h1
  · exact ⟨svc, h1, hst⟩
  · exact ⟨stopService svc, h1, rfl⟩

theorem runSteps_stopped_absorbing (evs : List LoopEvent) (t t2 : ProcTable)
    (h : runSteps t evs = Except.ok t2) (pid : Int) (hs : StoppedAt t pid) :
    StoppedAt t2 pid := by
  induction evs generalizing t with
  | nil =>
    unfold runSteps at h
    cases h
    exact hs
  | cons ev rest ih =>
    unfold runSteps at h
    cases ho : loopStep t ev with
    | error e =>
      rw [ho] at h
      exact absurd h (by simp)
    | ok out =>
      rw [ho] at h
      exact ih out.table h (step_stopped_absorbing t ev out ho pid hs)

/-! ## Claim theorems -/

/-- A concrete running record, used by witnesses. -/
def svcR : Service :=
  ⟨"echoer", "/bin/echo", some ["hi"], some 5, some ServiceStatus.Running, none⟩

/-- A concrete stopped record, used by witnesses. -/
def svcS : Service :=
  ⟨"done", "/bin/true", none, some 7, some ServiceStatus.Stopped, none⟩

/-- C3: writing an i32 pid to the self-pipe encodes it as exactly 4
little-endian bytes and a read decodes that exact pid back; for any
sequence of writes, draining returns the pids in write order with no
byte loss. -/
theorem C3_pipe_roundtrip_fifo :
    (∀ v : Int, comms.fits_i32 v →
      (comms.i32_to_le_bytes v).length = 4 ∧
      comms.read_from_pipe (comms.write_to_pipe [] v) = Except.ok (v, [])) ∧
    (∀ vs : List Int, (∀ v ∈ vs, comms.fits_i32 v) →
      comms.drain_all vs.length (comms.write_all [] vs) = Except.ok vs) := by
  constructor
  · intro v hv
    refine ⟨rfl, ?_⟩
    have h1 : comms.write_to_pipe [] v =
        List.append (comms.i32_to_le_bytes v) [] := by
      simp [comms.write_to_pipe]
    rw [h1]
    exact comms.read_encoded v hv []
  · intro vs hvs
    exact comms.drain_all_write_all vs hvs

/-- Witness for C3 at pid 7 and at the sequence [1, -2, 70000]. -/
theorem C3_witness :
    ((comms.i32_to_le_bytes 7).length = 4 ∧
      comms.read_from_pipe (comms.write_to_pipe [] 7) = Except.ok (7, [])) ∧
    comms.drain_all 3 (comms.write_all [] [1, -2, 70000]) =
      Except.ok [1, -2, 70000] :=
  ⟨C3_pipe_roundtrip_fifo.1 7 (by decide),
    C3_pipe_roundtrip_fifo.2 [1, -2, 70000] (by decide)⟩

/-- C1: draining a pid and getting a terminal wait status for a pid in
the table sets that record's status to Stopped (and nothing else); a
non-terminal status leaves the table unchanged; a pid absent from the
table leaves the table entirely unchanged and the iteration completes
without panicking; and a record once Stopped never shows any other
status again across any sequence of loop iterations (no new fork
happens inside the loop). -/
theorem C1_sigchld_status_updates :
    (∀ (t : ProcTable) (pid : Int) (ws : WaitStatus), ws.isTerminal = true →
      containsPid t pid = true →
      handlePipeReady t (PipeEvent.readOk pid (WaitResult.ok ws)) =
        ⟨setStatus t pid (some ServiceStatus.Stopped), [], [], []⟩) ∧
    (∀ (t : ProcTable) (pid : Int) (ws : WaitStatus), ws.isTerminal = false →
      (handlePipeReady t (PipeEvent.readOk pid (WaitResult.ok ws))).table = t) ∧
    (∀ (t : ProcTable) (pid : Int) (wr : WaitResult), containsPid t pid = false →
      ∃ logs, loopStep t (pipeOnlyEvent (PipeEvent.readOk pid wr)) =
        Except.ok ⟨t, logs, [], []⟩) ∧
    (∀ (evs : List LoopEvent) (t t2 : ProcTable) (pid : Int),
      runSteps t evs = Except.ok t2 → StoppedAt t pid → StoppedAt t2 pid) := by
  refine ⟨?_, ?_, ?_, ?_⟩
  · intro t pid ws hws hct
    unfold containsPid at hct
    rcases Option.isSome_iff_exists.mp hct with ⟨sv, hl⟩
    cases ws with
    | Exited p c => simp [handlePipeReady, hl]
    | Signaled p sg cd => simp [handlePipeReady, hl]
    | Stopped p sg => simp [WaitStatus.isTerminal] at hws
    | Continued p => simp [WaitStatus.isTerminal] at hws
    | StillAlive => simp [WaitStatus.isTerminal] at hws
  · intro t pid ws hws
    cases hl : lookupPid t pid with
    | none => cases ws <;> simp [handlePipeReady, hl]
    | some sv =>
      cases ws with
      | Exited p c => simp [WaitStatus.isTerminal] at hws
      | Signaled p sg cd => simp [WaitStatus.isTerminal] at hws
      | Stopped p sg => simp [handlePipeReady, hl]
      | Continued p => simp [handlePipeReady, hl]
      | StillAlive => simp [handlePipeReady, hl]
  · intro t pid wr hct
    have hl : lookupPid t pid = none := by
      unfold containsPid at hct
      cases hl2 : lookupPid t pid with
      | none => rfl
      | some sv =>
        rw [hl2] at hct
        simp at hct
    cases wr with
    | err e =>
      exact ⟨[(LogLevel.error, "waitpid() failed: " ++ e)], rfl⟩
    | ok ws =>
      refine ⟨[], ?_⟩
      simp [loopStep, pollRetry, loopBranches, pipeOnlyEvent, pipeOut,
        handlePipeReady, hl]
  · intro evs t t2 pid h hs
    exact runSteps_stopped_absorbing evs t t2 h pid hs

/-- Witness for C1: a terminal exit of tracked pid 5, an unknown pid 9
on an empty table, and absorption of Stopped across an empty run. -/
theorem C1_witness :
    handlePipeReady [(5, svcR)]
        (PipeEvent.readOk 5 (WaitResult.ok (WaitStatus.Exited 5 0))) =
      ⟨setStatus [(5, svcR)] 5 (some ServiceStatus.Stopped), [], [], []⟩ ∧
    (handlePipeReady [(5, svcR)]
        (PipeEvent.readOk 5 (WaitResult.ok (WaitStatus.Continued 5)))).table =
      [(5, svcR)] ∧
    (∃ logs, loopStep []
        (pipeOnlyEvent (PipeEvent.readOk 9 (WaitResult.ok WaitStatus.StillAlive))) =
      Except.ok ⟨[], logs, [], []⟩) ∧
    StoppedAt [(7, svcS)] 7 :=
  ⟨C1_sigchld_status_updates.1 [(5, svcR)] 5 (WaitStatus.Exited 5 0)
      (by decide) (by decide),
    C1_sigchld_status_updates.2.1 [(5, svcR)] 5 (WaitStatus.Continued 5) (by decide),
    C1_sigchld_status_updates.2.2.1 [] 9 (WaitResult.ok WaitStatus.StillAlive)
      (by decide),
    C1_sigchld_status_updates.2.2.2 [] [(7, svcS)] [(7, svcS)] 7 rfl
      ⟨svcS, rfl, rfl⟩⟩

/-- C2 counterexample: handling a Status request for an unknown name
crashes the loop when the response write fails — the source calls
`stream.write(&StatusResponse(None)).unwrap()`, so a write error
panics (modelled as `Except.error`) instead of being caught. -/
theorem C2_counterexample_status_write_panics :
    loopStep []
        (ipcOnlyEvent (IpcEvent.msg (IPCMessage.Status "missing") none (some "EPIPE"))) =
      Except.error "stream write failed: EPIPE" := rfl

/-- C2 (amended): for every Status request whose response write
succeeds, the engine replies with exactly one StatusResponse — the
pid and status of the record found by the name scan if one exists,
and the empty response if no record matches; with a successful write
the unknown-name handling does not crash.  (As stated the claim is
false: a failed response write panics, see the counterexample.) -/
theorem C2_status_reply (t : ProcTable) (name : String) (kE : Option String) :
    (findByName t name = none →
      handleIpcReady t (IpcEvent.msg (IPCMessage.Status name) kE none) =
        Except.ok ⟨t, [], [IPCMessage.StatusResponse none], []⟩) ∧
    (∀ (pid : Int) (svc : Service) (st : ServiceStatus),
      findByName t name = some (pid, svc) → svc.status = some st →
      handleIpcReady t (IpcEvent.msg (IPCMessage.Status name) kE none) =
        Except.ok ⟨t, [], [IPCMessage.StatusResponse (some (pid, st))], []⟩) := by
  constructor
  · intro hf
    simp [handleIpcReady, hf]
  · intro pid svc st hf hs
    simp [handleIpcReady, hf, hs]

/-- Witness for C2's amended theorem: a known name answers its pid and
status, an unknown name answers the empty response. -/
theorem C2_status_reply_witness :
    handleIpcReady [(5, svcR)] (IpcEvent.msg (IPCMessage.Status "echoer") none none) =
      Except.ok ⟨[(5, svcR)], [],
        [IPCMessage.StatusResponse (some (5, ServiceStatus.Running))], []⟩ ∧
    handleIpcReady [(5, svcR)] (IpcEvent.msg (IPCMessage.Status "missing") none none) =
      Except.ok ⟨[(5, svcR)], [], [IPCMessage.StatusResponse none], []⟩ :=
  ⟨(C2_status_reply [(5, svcR)] "echoer" none).2 5 svcR ServiceStatus.Running
      (by decide) rfl,
    (C2_status_reply [(5, svcR)] "missing" none).1 (by decide)⟩

/-- C4 counterexample: an `accept` error inside the steady-state loop
is not caught and logged — `ipc_server.accept().unwrap()` panics and
unwinds out of the loop (modelled as `Except.error`). -/
theorem C4_counterexample_accept_panics :
    loopStep [] (ipcOnlyEvent (IpcEvent.acceptErr "EMFILE")) =
      Except.error "accept failed: EMFILE" := rfl

/-- C4 (amended): inside the steady-state loop, pipe-read errors,
waitpid errors and kill errors are contained (the iteration completes
without unwinding), and EINTR from the readiness wait is retried; but
a non-EINTR poll error, an accept error, a control-message read
error, and a response write error all panic and unwind out of the
loop.  (As stated the claim is false, see the counterexample.) -/
theorem C4_error_containment :
    (∀ (t : ProcTable) (pe : PipeEvent),
      ∃ out, loopStep t (pipeOnlyEvent pe) = Except.ok out) ∧
    (∀ (t : ProcTable) (name : String) (kE wE : Option String),
      ∃ out, handleIpcReady t (IpcEvent.msg (IPCMessage.Stop name) kE wE) =
        Except.ok out) ∧
    (∀ errs : List Errno, (∀ e ∈ errs, e = Errno.EINTR) →
      pollRetry errs = Except.ok ()) ∧
    (∀ (t : ProcTable) (e : String),
      loopStep t (ipcOnlyEvent (IpcEvent.acceptErr e)) =
        Except.error ("accept failed: " ++ e)) ∧
    (∀ (t : ProcTable) (e : String),
      loopStep t (ipcOnlyEvent (IpcEvent.readErr e)) =
        Except.error ("stream read failed: " ++ e)) ∧
    (∀ (t : ProcTable) (name : String) (kE : Option String) (e : String),
      ∃ msg, handleIpcReady t (IpcEvent.msg (IPCMessage.Status name) kE (some e)) =
        Except.error msg) ∧
    (∀ (t : ProcTable) (ev : LoopEvent) (e : String),
      ev.pollErrs = [Errno.other e] →
      loopStep t ev = Except.error ("select() failed with " ++ e)) := by
  refine ⟨?_, ?_, ?_, ?_, ?_, ?_, ?_⟩
  · intro t pe
    exact ⟨pipeOut t (pipeOnlyEvent pe), rfl⟩
  · intro t name kE wE
    cases hf : findByName t name with
    | none =>
      exact ⟨⟨t, [(LogLevel.warn, "No service found to kill")], [], []⟩,
        by simp [handleIpcReady, hf]⟩
    | some pr =>
      obtain ⟨pid, svc⟩ := pr
      cases kE with
      | none =>
        exact ⟨⟨t, [(LogLevel.info, "Asking service to terminate.")], [], [pid]⟩,
          by simp [handleIpcReady, hf]⟩
      | some e =>
        exact ⟨⟨t, [(LogLevel.info, "Asking service to terminate."),
            (LogLevel.error, "kill() failed: " ++ e)], [], [pid]⟩,
          by simp [handleIpcReady, hf]⟩
  · intro errs h
    induction errs with
    | nil => rfl
    | cons e rest ih =>
      have he : e = Errno.EINTR := h e (List.mem_cons_self e rest)
      subst he
      exact ih (fun x hx => h x (List.mem_cons_of_mem _ hx))
  · intro t e
    rfl
  · intro t e
    rfl
  · intro t name kE e
    cases hf : findByName t name with
    | none =>
      exact ⟨"stream write failed: " ++ e, by simp [handleIpcReady, hf]⟩
    | some pr =>
      obtain ⟨pid, svc⟩ := pr
      cases hs : svc.status with
      | none => exact ⟨"unwrap on None", by simp [handleIpcReady, hf, hs]⟩
      | some st =>
        exact ⟨"stream write failed: " ++ e, by simp [handleIpcReady, hf, hs]⟩
  · intro t ev e h
    simp [loopStep, pollRetry, h]

/-- Witness for C4's amended theorem at concrete inputs. -/
theorem C4_error_containment_witness :
    (∃ out, loopStep [] (pipeOnlyEvent (PipeEvent.readErr "EAGAIN")) = Except.ok out) ∧
    (∃ out, handleIpcReady [(5, svcR)]
        (IpcEvent.msg (IPCMessage.Stop "echoer") (some "ESRCH") none) = Except.ok out) ∧
    pollRetry [Errno.EINTR, Errno.EINTR] = Except.ok () ∧
    (∃ msg, handleIpcReady []
        (IpcEvent.msg (IPCMessage.Status "missing") none (some "EPIPE")) =
      Except.error msg) ∧
    loopStep [] ⟨[Errno.other "EBADF"], false, false, PipeEvent.readErr "",
        IpcEvent.acceptErr ""⟩ =
      Except.error ("select() failed with " ++ "EBADF") :=
  ⟨C4_error_containment.1 [] (PipeEvent.readErr "EAGAIN"),
    C4_error_containment.2.1 [(5, svcR)] "echoer" (some "ESRCH") none,
    C4_error_containment.2.2.1 [Errno.EINTR, Errno.EINTR] (by decide),
    C4_error_containment.2.2.2.2.2.1 [] "missing" none "EPIPE",
    C4_error_containment.2.2.2.2.2.2 []
      ⟨[Errno.other "EBADF"], false, false, PipeEvent.readErr "",
        IpcEvent.acceptErr ""⟩ "EBADF" rfl⟩

/-- C5: Stop with a name that matches a record sends SIGTERM to that
record's pid and nothing else — the table is untouched, no response
is written, and the handler returns normally (no wait, no
confirmation); Stop with an unknown name sends no signal and only
logs a warning; in both cases the loop does not crash. -/
theorem C5_stop_best_effort (t : ProcTable) (name : String) (kE wE : Option String) :
    (∀ (pid : Int) (svc : Service), findByName t name = some (pid, svc) →
      ∃ logs, handleIpcReady t (IpcEvent.msg (IPCMessage.Stop name) kE wE) =
        Except.ok ⟨t, logs, [], [pid]⟩) ∧
    (findByName t name = none →
      handleIpcReady t (IpcEvent.msg (IPCMessage.Stop name) kE wE) =
        Except.ok ⟨t, [(LogLevel.warn, "No service found to kill")], [], []⟩) := by
  constructor
  · intro pid svc hf
    cases kE with
    | none =>
      exact ⟨[(LogLevel.info, "Asking service to terminate.")],
        by simp [handleIpcReady, hf]⟩
    | some e =>
      exact ⟨[(LogLevel.info, "Asking service to terminate."),
          (LogLevel.error, "kill() failed: " ++ e)],
        by simp [handleIpcReady, hf]⟩
  · intro hf
    simp [handleIpcReady, hf]

/-- Witness for C5: a known name gets SIGTERM at its pid, an unknown
name gets none. -/
theorem C5_stop_best_effort_witness :
    (∃ logs, handleIpcReady [(5, svcR)]
        (IpcEvent.msg (IPCMessage.Stop "echoer") none none) =
      Except.ok ⟨[(5, svcR)], logs, [], [5]⟩) ∧
    handleIpcReady [(5, svcR)] (IpcEvent.msg (IPCMessage.Stop "missing") none none) =
      Except.ok ⟨[(5, svcR)], [(LogLevel.warn, "No service found to kill")], [], []⟩ :=
  ⟨(C5_stop_best_effort [(5, svcR)] "echoer" none none).1 5 svcR (by decide),
    (C5_stop_best_effort [(5, svcR)] "missing" none none).2 (by decide)⟩

/-- C6: the child branch never returns to supervisor code, and when
exec fails the child logs the failure and exits immediately with the
distinguishing non-zero status 255 (`exit(-1)` observed as 255). -/
theorem C6_child_never_returns (s : Service) (env : ChildEnv) :
    (s.start env).outcome ≠ ChildOutcome.ReturnedToSupervisor ∧
    (env.execOk = false →
      (s.start env).outcome = ChildOutcome.Exited 255 ∧ (255 : Nat) ≠ 0 ∧
      (LogLevel.error, "exec() Failed") ∈ (s.start env).logs) := by
  obtain ⟨lfd, exec_ok⟩ := env
  constructor
  · cases exec_ok <;> simp [Service.start]
  · intro hex
    simp only [] at hex
    subst hex
    cases lfd <;>
      refine ⟨by simp [Service.start]; decide, by decide, by simp [Service.start]⟩

/-- Witness for C6 at a concrete service and a failing exec. -/
theorem C6_child_never_returns_witness :
    (svcR.start ⟨some 3, false⟩).outcome ≠ ChildOutcome.ReturnedToSupervisor ∧
    (svcR.start ⟨some 3, false⟩).outcome = ChildOutcome.Exited 255 :=
  ⟨(C6_child_never_returns svcR ⟨some 3, false⟩).1,
    ((C6_child_never_returns svcR ⟨some 3, false⟩).2 rfl).1⟩

/-- C7: if opening the per-service log file fails, no redirection
happens (stdout and stderr stay inherited — the `dup2` of the invalid
fd fails with EBADF and is a no-op), the failure is logged, and
execution still proceeds to exec; if opening succeeds, the log fd is
duplicated onto both stdout and stderr. -/
theorem C7_log_redirect_best_effort (s : Service) (env : ChildEnv) :
    (env.logOpenFd = none →
      (s.start env).stdoutSink = Sink.inherited ∧
      (s.start env).stderrSink = Sink.inherited ∧
      (LogLevel.error, "Failed to create log file") ∈ (s.start env).logs) ∧
    (env.logOpenFd = none → env.execOk = true →
      (s.start env).outcome = ChildOutcome.Execed s.executable ((s.start env).argv)) ∧
    (∀ fd : Nat, env.logOpenFd = some fd →
      (s.start env).stdoutSink = Sink.logFile ∧
      (s.start env).stderrSink = Sink.logFile) := by
  obtain ⟨lfd, exec_ok⟩ := env
  refine ⟨?_, ?_, ?_⟩
  · intro hlf
    simp only [] at hlf
    subst hlf
    cases exec_ok <;> simp [Service.start, dup2Model]
  · intro hlf hex
    simp only [] at hlf hex
    subst hlf
    subst hex
    simp [Service.start]
  · intro fd hlf
    simp only [] at hlf
    subst hlf
    cases exec_ok <;> simp [Service.start, dup2Model]

/-- Witness for C7: failed log open leaves descriptors inherited and
still execs; successful open redirects both. -/
theorem C7_log_redirect_best_effort_witness :
    (svcR.start ⟨none, true⟩).stdoutSink = Sink.inherited ∧
    (svcR.start ⟨none, true⟩).outcome =
      ChildOutcome.Execed svcR.executable ((svcR.start ⟨none, true⟩).argv) ∧
    (svcR.start ⟨some 3, true⟩).stdoutSink = Sink.logFile :=
  ⟨((C7_log_redirect_best_effort svcR ⟨none, true⟩).1 rfl).1,
    (C7_log_redirect_best_effort svcR ⟨none, true⟩).2.1 rfl rfl,
    ((C7_log_redirect_best_effort svcR ⟨some 3, true⟩).2.2 3 rfl).1⟩

/-- C8: the exec argument vector is exactly the executable path
followed by the declared args in order, with a terminating null entry
(just the path and the null when args is absent), and the executable
path is what is passed to exec as the program. -/
theorem C8_argv_construction (s : Service) (env : ChildEnv) :
    (∀ as : List String, s.args = some as →
      (s.start env).argv = List.append (some s.executable :: as.map some) [none]) ∧
    (s.args = none → (s.start env).argv = [some s.executable, none]) ∧
    (env.execOk = true →
      (s.start env).outcome = ChildOutcome.Execed s.executable ((s.start env).argv)) := by
  refine ⟨?_, ?_, ?_⟩
  · intro as hargs
    cases henv : env.execOk <;> simp [Service.start, hargs, henv]
  · intro hargs
    cases henv : env.execOk <;> simp [Service.start, hargs, henv]
  · intro hex
    simp [Service.start, hex]

/-- Witness for C8 with declared args, with absent args, and with a
successful exec. -/
theorem C8_argv_construction_witness :
    (svcR.start ⟨some 3, true⟩).argv =
      List.append (some svcR.executable :: (["hi"].map some)) [none] ∧
    (svcS.start ⟨some 3, true⟩).argv = [some svcS.executable, none] ∧
    (svcR.start ⟨some 3, true⟩).outcome =
      ChildOutcome.Execed svcR.executable ((svcR.start ⟨some 3, true⟩).argv) :=
  ⟨(C8_argv_construction svcR ⟨some 3, true⟩).1 ["hi"] rfl,
    (C8_argv_construction svcS ⟨some 3, true⟩).2.1 rfl,
    (C8_argv_construction svcR ⟨some 3, true⟩).2.2 rfl⟩

theorem find?_append_of_none {α : Type} (p : α → Bool) (l1 l2 : List α)
    (h : l1.find? p = none) :
    (List.append l1 l2).find? p = l2.find? p := by
  induction l1 with
  | nil => rfl
  | cons a rest ih =>
    rw [List.find?] at h
    cases hp : p a with
    | true =>
      rw [hp] at h
      simp at h
    | false =>
      rw [hp] at h
      show (a :: List.append rest l2).find? p = l2.find? p
      rw [List.find?, hp]
      exact ih h

/-- Inserting a record and looking it up by its key gives it back. -/
theorem lookup_insertPid_self (t : ProcTable) (pid : Int) (svc : Service) :
    lookupPid (insertPid t pid svc) pid = some svc := by
  unfold insertPid
  split
  case isTrue hct =>
    unfold lookupPid
    rw [List.find?_map]
    have hcomp : ((fun (e : Int × Service) => e.1 == pid) ∘
        (fun (e : Int × Service) => if e.1 == pid then (pid, svc) else e)) =
        (fun (e : Int × Service) => e.1 == pid) := by
      funext e
      simp only [Function.comp]
      by_cases hc : (e.1 == pid) = true
      · rw [if_pos hc]
        simp [hc]
      · rw [if_neg hc]
    rw [hcomp]
    have hex : ∃ e0, List.find? (fun (e : Int × Service) => e.1 == pid) t = some e0 := by
      unfold containsPid lookupPid at hct
      cases hfind : List.find? (fun (e : Int × Service) => e.1 == pid) t with
      | none =>
        rw [hfind] at hct
        simp at hct
      | some e0 => exact ⟨e0, rfl⟩
    rcases hex with ⟨e0, he0⟩
    rw [he0]
    have hk : e0.1 = pid := by simpa using List.find?_some he0
    simp [hk]
  case isFalse hct =>
    have hnone : List.find? (fun (e : Int × Service) => e.1 == pid) t = none := by
      unfold containsPid lookupPid at hct
      cases hfind : List.find? (fun (e : Int × Service) => e.1 == pid) t with
      | none => rfl
      | some e0 =>
        rw [hfind] at hct
        simp at hct
    unfold lookupPid
    rw [find?_append_of_none _ _ _ hnone]
    simp [List.find?]

/-- C9: a table record is mutated exactly at the two designed points
and never removed: the fork-time insert stores it with status Running
and the child's pid under the child's pid key; every loop iteration
preserves the key set exactly (no record is ever removed or added);
and every loop iteration either leaves a given record unchanged or
changes only its status, to Stopped. -/
theorem C9_record_lifecycle :
    (∀ (t : ProcTable) (sv : Service) (child : Int),
      lookupPid (insertPid t child (launchRecord sv child)) child =
        some { sv with status := some ServiceStatus.Running, pid := some child }) ∧
    (∀ (t : ProcTable) (ev : LoopEvent) (out : StepOut) (pid : Int),
      loopStep t ev = Except.ok out →
      containsPid out.table pid = containsPid t pid) ∧
    (∀ (t : ProcTable) (ev : LoopEvent) (out : StepOut) (pid : Int) (svc : Service),
      loopStep t ev = Except.ok out → lookupPid t pid = some svc →
      lookupPid out.table pid = some svc ∨
        lookupPid out.table pid = some (stopService svc)) := by
  refine ⟨?_, ?_, ?_⟩
  · intro t sv child
    exact lookup_insertPid_self t child (launchRecord sv child)
  · intro t ev out pid h
    exact step_contains t ev out h pid
  · intro t ev out pid svc h hl
    exact step_record_evolution t ev out h pid svc hl

/-- Witness for C9: insert at fork then a no-op iteration on one
concrete record. -/
theorem C9_record_lifecycle_witness :
    lookupPid (insertPid [] 5 (launchRecord svcR 5)) 5 =
      some { svcR with status := some ServiceStatus.Running, pid := some 5 } ∧
    containsPid [(5, svcR)] 5 = containsPid [(5, svcR)] 5 ∧
    (lookupPid [(5, svcR)] 5 = some svcR ∨
      lookupPid [(5, svcR)] 5 = some (stopService svcR)) :=
  ⟨C9_record_lifecycle.1 [] svcR 5,
    (C9_record_lifecycle.2.1 [(5, svcR)] (pipeOnlyEvent (PipeEvent.readErr "")) _ 5
        rfl).symm ▸ rfl,
    C9_record_lifecycle.2.2 [(5, svcR)] (pipeOnlyEvent (PipeEvent.readErr "")) _ 5
      svcR rfl (by decide)⟩

/-- C10: reachable tables are well-formed — startup produces a table
in which every entry keyed k has pid field some k and a non-None
status (Running or Stopped), every non-panicking iteration preserves
this, under it the status unwrap in the Status handler cannot panic
(with a successful write the handler returns normally), and the pid
in a StatusResponse is the key of the responding record, which equals
that record's own pid field. -/
theorem C10_table_invariant :
    (∀ launches : List (Service × Int), WFTable (launchAll [] launches)) ∧
    (∀ (t : ProcTable) (ev : LoopEvent) (out : StepOut),
      loopStep t ev = Except.ok out → WFTable t → WFTable out.table) ∧
    (∀ (t : ProcTable) (name : String) (kE : Option String), WFTable t →
      ∃ out, handleIpcReady t (IpcEvent.msg (IPCMessage.Status name) kE none) =
        Except.ok out) ∧
    (∀ (t : ProcTable) (name : String) (pid : Int) (svc : Service), WFTable t →
      findByName t name = some (pid, svc) → svc.pid = some pid) := by
  refine ⟨?_, ?_, ?_, ?_⟩
  · intro l
    exact wf_launchAll l [] wf_nil
  · intro t ev out h hwf
    exact wf_step t ev out h hwf
  · intro t name kE hwf
    cases hf : findByName t name with
    | none =>
      exact ⟨⟨t, [], [IPCMessage.StatusResponse none], []⟩,
        by simp [handleIpcReady, hf]⟩
    | some pr =>
      obtain ⟨pid, svc⟩ := pr
      have hmem : (pid, svc) ∈ t := List.mem_of_find?_eq_some hf
      rcases hwf (pid, svc) hmem with ⟨_hpid, hst⟩
      rcases hst with hst | hst
      · have hst2 : svc.status = some ServiceStatus.Running := hst
        exact ⟨⟨t, [], [IPCMessage.StatusResponse (some (pid, ServiceStatus.Running))], []⟩,
          by simp [handleIpcReady, hf, hst2]⟩
      · have hst2 : svc.status = some ServiceStatus.Stopped := hst
        exact ⟨⟨t, [], [IPCMessage.StatusResponse (some (pid, ServiceStatus.Stopped))], []⟩,
          by simp [handleIpcReady, hf, hst2]⟩
  · intro t name pid svc hwf hf
    have hmem : (pid, svc) ∈ t := List.mem_of_find?_eq_some hf
    exact (hwf (pid, svc) hmem).1

/-- Witness for C10 on a one-service launch and its table. -/
theorem C10_table_invariant_witness :
    WFTable (launchAll [] [(svcR, 5)]) ∧
    (∃ out, handleIpcReady [(5, { svcR with pid := some 5 })]
        (IpcEvent.msg (IPCMessage.Status "echoer") none none) = Except.ok out) ∧
    ({ svcR with pid := some 5 } : Service).pid = some 5 := by
  have hwf : WFTable [(5, { svcR with pid := some 5 })] := by
    intro e he
    rcases List.mem_singleton.mp he with rfl
    exact ⟨rfl, Or.inl rfl⟩
  exact ⟨C10_table_invariant.1 [(svcR, 5)],
    C10_table_invariant.2.2.1 [(5, { svcR with pid := some 5 })] "echoer" none hwf,
    C10_table_invariant.2.2.2 [(5, { svcR with pid := some 5 })] "echoer" 5
      { svcR with pid := some 5 } hwf (by decide)⟩
